import Mathlib

/-!
Verification of the interval-counting game domain logic of knowlift.

The domain module `knowlift/domain/interval_count_game.py` is referenced by
its tests (`tests/test_interval_count_game.py`, `tests/number_distance_tests.py`)
and by the application layer (`knowlift/application/interval_count.py`), but its
source is not part of the tree.  The definitions below therefore model that
module from the specification, with the concrete behaviours pinned by the
test files (catalog size, saturation levels, log messages, worked examples).
-/

/-- Value of a little-endian (least-significant-digit-first) base-10 digit
list. -/
def valDigits : List ℕ → ℕ
  | [] => 0
  | d :: ds => d + 10 * valDigits ds

/-- Base-10 digits of a natural number, least significant first; empty for 0. -/
def digitsCore (n : ℕ) : List ℕ :=
  if h : n = 0 then [] else n % 10 :: digitsCore (n / 10)
termination_by n
decreasing_by exact Nat.div_lt_self (Nat.pos_of_ne_zero h) (by norm_num)

/-- Base-10 digits, least significant first, with `0` mapped to `[0]` so that
every number has at least one digit. -/
def digitsRev (m : ℕ) : List ℕ := if m = 0 then [0] else digitsCore m

theorem valDigits_digitsCore (n : ℕ) : valDigits (digitsCore n) = n := by
  induction n using Nat.strong_induction_on with
  | _ n ih =>
    rw [digitsCore]
    split
    · simp [valDigits]; omega
    · rename_i h
      rw [valDigits]
      rw [ih (n / 10) (Nat.div_lt_self (Nat.pos_of_ne_zero h) (by norm_num))]
      omega

theorem digitsCore_lt (n : ℕ) : ∀ d ∈ digitsCore n, d < 10 := by
  induction n using Nat.strong_induction_on with
  | _ n ih =>
    rw [digitsCore]
    split
    · simp
    · rename_i h
      intro d hd
      rcases List.mem_cons.mp hd with h1 | h2
      · omega
      · exact ih (n / 10) (Nat.div_lt_self (Nat.pos_of_ne_zero h) (by norm_num)) d h2

theorem valDigits_digitsRev (m : ℕ) : valDigits (digitsRev m) = m := by
  rw [digitsRev]
  split
  · rename_i h; subst h; rfl
  · exact valDigits_digitsCore m

theorem digitsRev_lt (m : ℕ) : ∀ d ∈ digitsRev m, d < 10 := by
  rw [digitsRev]
  split
  · simp
  · exact digitsCore_lt m

theorem digitsRev_ne_nil (m : ℕ) : digitsRev m ≠ [] := by
  rw [digitsRev]
  split
  · simp
  · rename_i h
    rw [digitsCore]
    simp [h]

/-- Insert the digit-group separator before every character whose
least-significant-first position is a positive multiple of three. -/
def sepRev : ℕ → List Char → List Char
  | _, [] => []
  | i, c :: cs =>
      if i ≠ 0 ∧ i % 3 = 0 then ' ' :: c :: sepRev (i + 1) cs
      else c :: sepRev (i + 1) cs

theorem filter_sepRev (cs : List Char) :
    ∀ i : ℕ, (∀ c ∈ cs, c ≠ ' ') →
      (sepRev i cs).filter (fun c => decide (c ≠ ' ')) = cs := by
  induction cs with
  | nil => intro i _; rfl
  | cons c cs ih =>
    intro i hne
    have hc : c ≠ ' ' := hne c (List.mem_cons_self c cs)
    have hrest : ∀ x ∈ cs, x ≠ ' ' := fun x hx => hne x (List.mem_cons_of_mem c hx)
    rw [sepRev]
    split
    · rw [List.filter_cons_of_neg (by simp), List.filter_cons_of_pos (by simp [hc])]
      rw [ih (i + 1) hrest]
    · rw [List.filter_cons_of_pos (by simp [hc])]
      rw [ih (i + 1) hrest]

/-- Modelled from the spec: `prettifyNumber` of the missing domain module
`knowlift/domain/interval_count_game.py` — inserts the digit-group separator
`' '` every three digits from the decimal point, preserving a leading minus
sign (section 4.2 of the specification; exact values pinned by
`test_prettify_number`). -/
def prettify_number (n : ℤ) : String :=
  String.mk
    (if n < 0 then sepRev 0 ((digitsRev n.natAbs).map Nat.digitChar) ++ ['-']
     else sepRev 0 ((digitsRev n.natAbs).map Nat.digitChar)).reverse

/-- A character is a decimal digit. -/
def isDigitChar (c : Char) : Bool := '0' ≤ c && c ≤ '9'

/-- Numeric value of a decimal digit character. -/
def charVal (c : Char) : ℕ := c.toNat - 48

/-- Strict parse of a nonempty all-digit character list (most significant
first). -/
def parseNatStrict (l : List Char) : Option ℕ :=
  if l ≠ [] ∧ l.all isDigitChar then some (valDigits (l.reverse.map charVal))
  else none

/-- Modelled from the spec: the strict integer parsing used by `fetchLevel`
and the evaluator of the missing domain module — accepts an optional leading
minus sign followed by decimal digits only; rejects floats and non-numeric
text (section 4.1 of the specification). -/
def parseIntStrict (s : String) : Option ℤ :=
  match s.toList with
  | [] => none
  | c :: cs =>
      if c = '-' then (parseNatStrict cs).map (fun v => -(Int.ofNat v))
      else (parseNatStrict (c :: cs)).map (fun v => Int.ofNat v)

/-- Remove the digit-group separators from a display string. -/
def stripSep (s : String) : String :=
  String.mk (s.toList.filter (fun c => decide (c ≠ ' ')))

theorem charVal_digitChar {d : ℕ} (h : d < 10) : charVal (Nat.digitChar d) = d := by
  interval_cases d <;> rfl

theorem isDigitChar_digitChar {d : ℕ} (h : d < 10) :
    isDigitChar (Nat.digitChar d) = true := by
  interval_cases d <;> rfl

theorem digitChar_ne_space {d : ℕ} (h : d < 10) : Nat.digitChar d ≠ ' ' := by
  interval_cases d <;> decide

theorem digitChar_ne_minus {d : ℕ} (h : d < 10) : Nat.digitChar d ≠ '-' := by
  interval_cases d <;> decide

theorem map_charVal_digitChar (ds : List ℕ) (h : ∀ d ∈ ds, d < 10) :
    (ds.map Nat.digitChar).map charVal = ds := by
  induction ds with
  | nil => rfl
  | cons d ds ih =>
    simp only [List.map_cons, List.cons.injEq]
    constructor
    · exact charVal_digitChar (h d (List.mem_cons_self d ds))
    · exact ih (fun x hx => h x (List.mem_cons_of_mem d hx))

theorem toList_mk (l : List Char) : (String.mk l).toList = l := rfl

theorem filter_rev (p : Char → Bool) (l : List Char) :
    l.reverse.filter p = (l.filter p).reverse := by
  induction l with
  | nil => rfl
  | cons c cs ih =>
    rw [List.reverse_cons, List.filter_append, ih, List.filter_cons]
    by_cases h : p c
    · simp [h]
    · simp [h]

theorem parseNatStrict_digits (m : ℕ) :
    parseNatStrict (((digitsRev m).map Nat.digitChar).reverse) = some m := by
  have hnonempty : ((digitsRev m).map Nat.digitChar).reverse ≠ [] := by
    simp [digitsRev_ne_nil m]
  have hall : (((digitsRev m).map Nat.digitChar).reverse).all isDigitChar = true := by
    rw [List.all_eq_true]
    intro c hc
    rw [List.mem_reverse] at hc
    obtain ⟨d, hd, rfl⟩ := List.mem_map.mp hc
    exact isDigitChar_digitChar (digitsRev_lt m d hd)
  rw [parseNatStrict, if_pos ⟨hnonempty, hall⟩, List.reverse_reverse,
      map_charVal_digitChar _ (digitsRev_lt m), valDigits_digitsRev]

theorem strip_prettify (n : ℤ) :
    (stripSep (prettify_number n)).toList =
      (if n < 0 then
        '-' :: ((digitsRev n.natAbs).map Nat.digitChar).reverse
       else ((digitsRev n.natAbs).map Nat.digitChar).reverse) := by
  have hnospace : ∀ c ∈ (digitsRev n.natAbs).map Nat.digitChar, c ≠ ' ' := by
    intro c hc
    obtain ⟨d, hd, rfl⟩ := List.mem_map.mp hc
    exact digitChar_ne_space (digitsRev_lt _ d hd)
  have hfilter := filter_sepRev ((digitsRev n.natAbs).map Nat.digitChar) 0 hnospace
  rw [stripSep, prettify_number, toList_mk, toList_mk]
  by_cases hneg : n < 0
  · rw [if_pos hneg, if_pos hneg, List.reverse_append, List.reverse_cons,
        List.reverse_nil, List.nil_append, List.cons_append, List.nil_append,
        List.filter_cons_of_pos (by decide), filter_rev, hfilter]
  · rw [if_neg hneg, if_neg hneg, filter_rev, hfilter]

/-- C10 support: parsing back the stripped display string recovers the
original integer. -/
theorem parse_strip_prettify (n : ℤ) :
    parseIntStrict (stripSep (prettify_number n)) = some n := by
  rw [parseIntStrict, strip_prettify]
  by_cases hneg : n < 0
  · rw [if_pos hneg]
    show (parseNatStrict (((digitsRev n.natAbs).map Nat.digitChar).reverse)).map
        (fun v => -(Int.ofNat v)) = some n
    rw [parseNatStrict_digits, Option.map_some']
    rw [Option.some_inj, Int.ofNat_eq_natCast]
    omega
  · rw [if_neg hneg]
    rcases hcc : (((digitsRev n.natAbs).map Nat.digitChar).reverse) with _ | ⟨c, cs⟩
    · exfalso
      rw [List.reverse_eq_nil_iff, List.map_eq_nil_iff] at hcc
      exact digitsRev_ne_nil n.natAbs hcc
    · have hcmem : c ∈ ((digitsRev n.natAbs).map Nat.digitChar).reverse := by
        rw [hcc]; exact List.mem_cons_self c cs
      rw [List.mem_reverse] at hcmem
      obtain ⟨d, hd, hdc⟩ := List.mem_map.mp hcmem
      have hcminus : ¬ (c = '-') := by
        rw [← hdc]; exact digitChar_ne_minus (digitsRev_lt _ d hd)
      show (if c = '-' then (parseNatStrict cs).map (fun v => -(Int.ofNat v))
        else (parseNatStrict (c :: cs)).map (fun v => Int.ofNat v)) = some n
      rw [if_neg hcminus, ← hcc, parseNatStrict_digits, Option.map_some']
      rw [Option.some_inj, Int.ofNat_eq_natCast]
      omega

/-- C10: stripping the digit-group separators from `prettify_number n` and
parsing the remainder back as an integer yields `n`; the separator is
inserted every three digits from the decimal point and a leading minus sign
is preserved, as witnessed on 100, -1000 and 150000000. -/
theorem prettify_number_roundtrip :
    (∀ n : ℤ, parseIntStrict (stripSep (prettify_number n)) = some n) ∧
    prettify_number 100 = "100" ∧
    prettify_number (-1000) = "-1 000" ∧
    prettify_number 150000000 = "150 000 000" := by
  refine ⟨parse_strip_prettify, ?_, ?_, ?_⟩
  · simp [prettify_number, digitsRev, digitsCore, sepRev]
    rfl
  · simp [prettify_number, digitsRev, digitsCore, sepRev]
    rfl
  · simp [prettify_number, digitsRev, digitsCore, sepRev]
    rfl

/-- Modelled from the spec: the difficulty tier catalog `GAME_LEVELS` of the
missing domain module.  The tests pin twelve tiers (indices 0 through 11:
`fetch_game_level` rejects "12", `change_game_level` saturates at 11); the
exact magnitude bounds are an open design choice of the specification
(section 9), chosen here as increasing powers of ten. -/
def GAME_LEVELS : List (ℤ × ℤ) :=
  [(1, 9), (10, 99), (100, 999), (1000, 9999), (10000, 99999),
   (100000, 999999), (1000000, 9999999), (10000000, 99999999),
   (100000000, 999999999), (1000000000, 9999999999),
   (10000000000, 99999999999), (100000000000, 999999999999)]

/-- Top tier index of the catalog. -/
def maxLevelIndex : ℤ := (GAME_LEVELS.length : ℤ) - 1

/-- Modelled from the spec: `fetchLevel` of the missing domain module — parse
the raw string strictly, reject values outside the catalog range, and return
the catalog tier at the parsed index together with the emitted log entries
(sections 4.1 and 7 of the specification; behaviour pinned by
`test_fetch_game_level`). -/
def fetch_game_level (s : String) : Option (ℤ × ℤ) × List String :=
  match parseIntStrict s with
  | none => (none, ["Unable to parse the game level from: " ++ s])
  | some n =>
      if n < 0 then
        (none, ["Unable to fetch the game level with index: " ++ toString n])
      else
        match GAME_LEVELS[n.toNat]? with
        | some tier => (some tier, [])
        | none =>
            (none, ["Unable to fetch the game level with index: " ++ toString n])

/-- Modelled from the spec: `changeLevel` of the missing domain module —
raise the level by one when correct answers exceed incorrect ones by at
least two, lower it by one in the symmetric case, clamped to the catalog
ends where the unchanged level is returned together with the logged
"Maximum level reached" / "Minimum level reached" message (section 4.3 of
the specification; saturation behaviour pinned by `test_change_game_level`). -/
def change_game_level (correct incorrect level : ℤ) : ℤ × List String :=
  if 2 ≤ correct - incorrect then
    if level < maxLevelIndex then (level + 1, [])
    else (level, ["Maximum level reached"])
  else if 2 ≤ incorrect - correct then
    if 0 < level then (level - 1, [])
    else (level, ["Minimum level reached"])
  else (level, [])

/-- Round a rational to two decimal places. -/
def round2 (q : ℚ) : ℚ := (round (q * 100) : ℤ) / 100

/-- Modelled from the spec: `calculateStatistics` of the missing domain
module — both percentages are taken over the sum of the two arguments and
rounded to two decimal places (values pinned by `test_calculate_statistics`);
a zero `total` is the division-by-zero input that sections 4.4 and 7 of the
specification require to be an explicit error return, modelled as `none`. -/
def calculate_statistics (incorrect total : ℚ) : Option (ℚ × ℚ) :=
  if total = 0 then none
  else
    some (round2 (100 * incorrect / (incorrect + total)),
          round2 (100 * total / (incorrect + total)))

/-- Modelled from the spec: the evaluation payload received by the missing
domain module's `generate_result` — a form record whose fields may each be
absent (section 3 of the specification).  The submitted answer is carried as
an integer; the strict-integer validation of a textual answer happens at the
web boundary. -/
structure GamePayload where
  left_glyph : Option Char
  right_glyph : Option Char
  start_internal : Option ℤ
  stop_internal : Option ℤ
  start_representation : Option String
  stop_representation : Option String
  answer : Option ℤ
  game_level : Option ℤ
deriving DecidableEq

/-- Modelled from the spec: the evaluation result produced by the missing
domain module's `generate_result` — computed count, display strings, outcome
and pass-through copies of the interval fields (section 3 of the
specification). -/
structure GameResult where
  cpu_internal : ℤ
  cpu_representation : String
  answer_representation : String
  outcome : Bool
  left_glyph : Char
  right_glyph : Char
  answer : ℤ
  game_level : ℤ
  start_representation : String
  stop_representation : String
  start_internal : ℤ
  stop_internal : ℤ
deriving DecidableEq

/-- Log message for an invalid boundary glyph. -/
def glyphErr (c : Char) : String := "unexpected glyph " ++ String.mk [c]

/-- Modelled from the spec: `generate_result` (the evaluator `evaluate`) of
the missing domain module — validates field presence, boundary glyphs,
representation consistency and bound ordering in that order, each failure
yielding no result plus a distinct log entry; on success computes the
glyph-adjusted count and the correctness outcome (section 4.2 of the
specification; values pinned by `test_generate_result_correct_values` and
`test_generate_result_incorrect_values`). -/
def generate_result (p : GamePayload) : Option GameResult × List String :=
  match p.left_glyph with
  | none => (none, ["left_glyph not found in form data."])
  | some lg =>
  match p.right_glyph with
  | none => (none, ["right_glyph not found in form data."])
  | some rg =>
  match p.start_internal with
  | none => (none, ["start_internal not found in form data."])
  | some si =>
  match p.stop_internal with
  | none => (none, ["stop_internal not found in form data."])
  | some sto =>
  match p.start_representation with
  | none => (none, ["start_representation not found in form data."])
  | some sr =>
  match p.stop_representation with
  | none => (none, ["stop_representation not found in form data."])
  | some stor =>
  match p.answer with
  | none => (none, ["answer not found in form data."])
  | some ans =>
  match p.game_level with
  | none => (none, ["game_level not found in form data."])
  | some gl =>
  if lg = '(' ∨ lg = '[' then
    if rg = ')' ∨ rg = ']' then
      if sr = prettify_number si then
        if stor = prettify_number sto then
          if si < sto then
            (some
              { cpu_internal :=
                  sto - si - 1 + (if lg = '[' then 1 else 0) +
                    (if rg = ']' then 1 else 0),
                cpu_representation :=
                  prettify_number
                    (sto - si - 1 + (if lg = '[' then 1 else 0) +
                      (if rg = ']' then 1 else 0)),
                answer_representation := prettify_number ans,
                outcome :=
                  decide
                    (ans =
                      sto - si - 1 + (if lg = '[' then 1 else 0) +
                        (if rg = ']' then 1 else 0)),
                left_glyph := lg, right_glyph := rg, answer := ans,
                game_level := gl, start_representation := sr,
                stop_representation := stor, start_internal := si,
                stop_internal := sto }, [])
          else
            (none, ["inconsistency between the interval limits: " ++ sr ++
              " and " ++ stor])
        else
          (none, ["inconsistency between the number " ++ stor ++
            " and its representation"])
      else
        (none, ["inconsistency between the number " ++ sr ++
          " and its representation"])
    else (none, [glyphErr rg])
  else (none, [glyphErr lg])

/-- Modelled from the spec: the round data produced by `play` (`startRound`)
of the missing domain module — the interval handed to the caller for display
(sections 3 and 4.2 of the specification). -/
structure GameRound where
  left_glyph : Char
  right_glyph : Char
  start_internal : ℤ
  stop_internal : ℤ
  start_representation : String
  stop_representation : String
  game_level : ℤ
deriving DecidableEq

/-- Modelled from the spec: `play` (`startRound`) of the missing domain
module — validates the requested level through the catalog, then builds the
round from the random draw supplied by the environment: a boundary-glyph
choice per side and two distinct integers, of which the smaller becomes
`start_internal` (section 4.2 of the specification; the sampling envelope is
the random source's concern and the exact distribution is an open design
choice, section 9). -/
def play (level : String) (leftClosed rightClosed : Bool)
    (draw : {p : ℤ × ℤ // p.1 ≠ p.2}) : Option GameRound :=
  match parseIntStrict level, (fetch_game_level level).1 with
  | some n, some _tier =>
      some
        { left_glyph := if leftClosed then '[' else '(',
          right_glyph := if rightClosed then ']' else ')',
          start_internal := min draw.val.1 draw.val.2,
          stop_internal := max draw.val.1 draw.val.2,
          start_representation := prettify_number (min draw.val.1 draw.val.2),
          stop_representation := prettify_number (max draw.val.1 draw.val.2),
          game_level := n }
  | _, _ => none

/-- C1: for every evaluation payload that passes all validations (all fields
present, valid glyphs, representations consistent with the internal bounds,
ordered bounds, integer answer), `generate_result` returns a result whose
`cpu_internal` equals `(stop - start - 1)` plus one for each inclusive
glyph, and whose `outcome` is true exactly when the answer equals this
count. -/
theorem generate_result_count_outcome
    (lg rg : Char) (si sto ans gl : ℤ)
    (hl : lg = '(' ∨ lg = '[') (hr : rg = ')' ∨ rg = ']') (hord : si < sto) :
    ∃ r : GameResult,
      (generate_result
        { left_glyph := some lg, right_glyph := some rg,
          start_internal := some si, stop_internal := some sto,
          start_representation := some (prettify_number si),
          stop_representation := some (prettify_number sto),
          answer := some ans, game_level := some gl }).1 = some r ∧
      r.cpu_internal =
        sto - si - 1 + (if lg = '[' then 1 else 0) +
          (if rg = ']' then 1 else 0) ∧
      (r.outcome = true ↔
        ans = sto - si - 1 + (if lg = '[' then 1 else 0) +
          (if rg = ']' then 1 else 0)) := by
  simp only [generate_result]
  rw [if_pos hl, if_pos hr]
  simp only [if_true]
  rw [if_pos hord]
  exact ⟨_, rfl, rfl, by rw [decide_eq_true_iff]⟩

/-- C1 witness: the open-open interval (7, 41) with answer 33. -/
theorem generate_result_count_outcome_witness :
    ∃ r : GameResult,
      (generate_result
        { left_glyph := some '(', right_glyph := some ')',
          start_internal := some 7, stop_internal := some 41,
          start_representation := some (prettify_number 7),
          stop_representation := some (prettify_number 41),
          answer := some 33, game_level := some 0 }).1 = some r ∧
      r.cpu_internal =
        41 - 7 - 1 + (if ('(' : Char) = '[' then 1 else 0) +
          (if (')' : Char) = ']' then 1 else 0) ∧
      (r.outcome = true ↔
        (33 : ℤ) = 41 - 7 - 1 + (if ('(' : Char) = '[' then 1 else 0) +
          (if (')' : Char) = ']' then 1 else 0)) :=
  generate_result_count_outcome '(' ')' 7 41 33 0 (Or.inl rfl) (Or.inl rfl)
    (by norm_num)

/-- C7: whenever `stop_internal` is not strictly greater than
`start_internal`, `generate_result` produces no result, whatever the other
fields hold; the bounds are never silently swapped. -/
theorem generate_result_unordered_none
    (p : GamePayload) (si sto : ℤ)
    (hsi : p.start_internal = some si) (hsto : p.stop_internal = some sto)
    (hle : sto ≤ si) : (generate_result p).1 = none := by
  obtain ⟨lg, rg, si', sto', sr, stor, ans, gl⟩ := p
  simp only at hsi hsto
  subst hsi hsto
  have hns : ¬ (si < sto) := by omega
  cases lg with
  | none => rfl
  | some lg =>
  cases rg with
  | none => rfl
  | some rg =>
  cases sr with
  | none => rfl
  | some sr =>
  cases stor with
  | none => rfl
  | some stor =>
  cases ans with
  | none => rfl
  | some ans =>
  cases gl with
  | none => rfl
  | some gl =>
  simp only [generate_result]
  rw [if_neg hns]
  repeat' split
  all_goals rfl

/-- C7 witness: the reversed interval [41, 7] from the test suite. -/
theorem generate_result_unordered_none_witness :
    (generate_result
      { left_glyph := some '[', right_glyph := some ']',
        start_internal := some 41, stop_internal := some 7,
        start_representation := some "7", stop_representation := some "41",
        answer := some 35, game_level := some 0 }).1 = none :=
  generate_result_unordered_none _ 41 7 rfl rfl (by norm_num)

/-- C8: a payload whose left glyph is outside the permitted left set, or
whose right glyph is outside the permitted right set, yields no result
regardless of the otherwise-valid numeric fields, and the offending glyph is
logged. -/
theorem generate_result_bad_glyph
    (lg rg : Char) (si sto ans gl : ℤ) (sr stor : String) :
    (¬ (lg = '(' ∨ lg = '[') →
      generate_result
        { left_glyph := some lg, right_glyph := some rg,
          start_internal := some si, stop_internal := some sto,
          start_representation := some sr, stop_representation := some stor,
          answer := some ans, game_level := some gl } =
        (none, [glyphErr lg])) ∧
    ((lg = '(' ∨ lg = '[') → ¬ (rg = ')' ∨ rg = ']') →
      generate_result
        { left_glyph := some lg, right_glyph := some rg,
          start_internal := some si, stop_internal := some sto,
          start_representation := some sr, stop_representation := some stor,
          answer := some ans, game_level := some gl } =
        (none, [glyphErr rg])) := by
  constructor
  · intro hl
    simp only [generate_result]
    rw [if_neg hl]
  · intro hl hr
    simp only [generate_result]
    rw [if_pos hl, if_neg hr]

/-- C8 witness: a right-side glyph supplied on the left and an invalid right
glyph, both drawn from the test suite's invalid sets. -/
theorem generate_result_bad_glyph_witness :
    generate_result
      { left_glyph := some ')', right_glyph := some ')',
        start_internal := some 7, stop_internal := some 41,
        start_representation := some "7", stop_representation := some "41",
        answer := some 33, game_level := some 0 } =
      (none, [glyphErr ')']) ∧
    generate_result
      { left_glyph := some '(', right_glyph := some '[',
        start_internal := some 7, stop_internal := some 41,
        start_representation := some "7", stop_representation := some "41",
        answer := some 33, game_level := some 0 } =
      (none, [glyphErr '[']) :=
  ⟨(generate_result_bad_glyph ')' ')' 7 41 33 0 "7" "41").1 (by decide),
   (generate_result_bad_glyph '(' '[' 7 41 33 0 "7" "41").2 (Or.inl rfl)
     (by decide)⟩

/-- C2 (amended): starting from level 0, a 6-correct/4-incorrect call raises
the level by exactly one per call until it saturates at the catalog's top
index, which is 11; at the top a further call returns the unchanged level and
logs "Maximum level reached"; symmetrically a 4/6 call lowers the level by
one per call, and at index 0 returns 0 unchanged and logs
"Minimum level reached". -/
theorem change_game_level_steps :
    (∀ level : ℤ, 0 ≤ level → level < 11 →
        change_game_level 6 4 level = (level + 1, [])) ∧
    change_game_level 6 4 11 = (11, ["Maximum level reached"]) ∧
    (∀ level : ℤ, 0 < level → level ≤ 11 →
        change_game_level 4 6 level = (level - 1, [])) ∧
    change_game_level 4 6 0 = (0, ["Minimum level reached"]) := by
  have hmax : maxLevelIndex = 11 := by decide
  refine ⟨?_, by decide, ?_, by decide⟩
  · intro level h0 h11
    simp only [change_game_level, hmax]
    rw [if_pos (by norm_num), if_pos (by omega)]
  · intro level h0 h11
    simp only [change_game_level, hmax]
    rw [if_neg (by norm_num), if_pos (by norm_num), if_pos (by omega)]

/-- C2 witness: one non-saturated step in each direction. -/
theorem change_game_level_steps_witness :
    change_game_level 6 4 0 = (1, []) ∧ change_game_level 4 6 11 = (10, []) :=
  ⟨change_game_level_steps.1 0 (by norm_num) (by norm_num),
   change_game_level_steps.2.2.1 11 (by norm_num) (by norm_num)⟩

/-- C2 counterexample: the catalog's top index is not 10 — a 6/4 call at
level 10 still increases the level to 11 and does not log
"Maximum level reached". -/
theorem change_game_level_top_is_not_ten :
    change_game_level 6 4 10 = (11, []) ∧
    ((11 : ℤ), ([] : List String)) ≠ (10, ["Maximum level reached"]) := by
  decide

/-- C3: `fetch_game_level` yields nothing on every input that does not parse
as a strict integer and on every integer outside the catalog range 0..11,
and produces the catalog tier at the parsed index for every in-range integer
string; pinned on the test inputs "bogus", "3.14", "15", "-1", "0", "7". -/
theorem fetch_game_level_spec :
    (∀ s : String, parseIntStrict s = none → (fetch_game_level s).1 = none) ∧
    (∀ (s : String) (n : ℤ), parseIntStrict s = some n → (n < 0 ∨ 12 ≤ n) →
        (fetch_game_level s).1 = none) ∧
    (∀ (s : String) (n : ℤ), parseIntStrict s = some n → 0 ≤ n → n < 12 →
        ∃ tier, GAME_LEVELS[n.toNat]? = some tier ∧
          (fetch_game_level s).1 = some tier) ∧
    (fetch_game_level "bogus").1 = none ∧
    (fetch_game_level "3.14").1 = none ∧
    (fetch_game_level "15").1 = none ∧
    (fetch_game_level "-1").1 = none ∧
    (fetch_game_level "0").1 = some (1, 9) ∧
    (fetch_game_level "7").1 = some (10000000, 99999999) := by
  refine ⟨?_, ?_, ?_, by decide, by decide, by decide, by decide, by decide,
    by decide⟩
  · intro s hparse
    simp only [fetch_game_level, hparse]
  · intro s n hparse hout
    simp only [fetch_game_level, hparse]
    rcases hout with hneg | hbig
    · rw [if_pos hneg]
    · rw [if_neg (by omega)]
      have hnone : GAME_LEVELS[n.toNat]? = none := by
        apply List.getElem?_eq_none
        have : GAME_LEVELS.length = 12 := by decide
        omega
      rw [hnone]
  · intro s n hparse h0 h12
    simp only [fetch_game_level, hparse]
    rw [if_neg (by omega)]
    have hlt : n.toNat < GAME_LEVELS.length := by
      have : GAME_LEVELS.length = 12 := by decide
      omega
    have hsome : GAME_LEVELS[n.toNat]? = some (GAME_LEVELS[n.toNat]) :=
      List.getElem?_eq_getElem hlt
    rw [hsome]
    exact ⟨GAME_LEVELS[n.toNat], rfl, rfl⟩

/-- C3 witness: the in-range input "7" produces the tier at index 7. -/
theorem fetch_game_level_spec_witness :
    ∃ tier, GAME_LEVELS[(7 : ℤ).toNat]? = some tier ∧
      (fetch_game_level "7").1 = some tier :=
  fetch_game_level_spec.2.2.1 "7" 7 (by decide) (by norm_num) (by norm_num)

theorem round2_pair_bound (a b : ℚ) (hab : a + b = 100) :
    |round2 a + round2 b - 100| ≤ 1 / 100 := by
  have h1 : |((round (a * 100) : ℤ) : ℚ) - a * 100| ≤ 1 / 2 := by
    rw [abs_sub_comm]; exact abs_sub_round _
  have h2 : |((round (b * 100) : ℤ) : ℚ) - b * 100| ≤ 1 / 2 := by
    rw [abs_sub_comm]; exact abs_sub_round _
  have key : round2 a + round2 b - 100 =
      (((round (a * 100) : ℤ) : ℚ) - a * 100) / 100 +
        (((round (b * 100) : ℤ) : ℚ) - b * 100) / 100 := by
    rw [round2, round2]; linear_combination hab
  rw [key]
  calc |(((round (a * 100) : ℤ) : ℚ) - a * 100) / 100 +
        (((round (b * 100) : ℤ) : ℚ) - b * 100) / 100|
      ≤ |(((round (a * 100) : ℤ) : ℚ) - a * 100) / 100| +
        |(((round (b * 100) : ℤ) : ℚ) - b * 100) / 100| := abs_add _ _
    _ = |((round (a * 100) : ℤ) : ℚ) - a * 100| / 100 +
        |((round (b * 100) : ℤ) : ℚ) - b * 100| / 100 := by
        rw [abs_div, abs_div]; norm_num
    _ ≤ (1 / 2) / 100 + (1 / 2) / 100 := by gcongr
    _ = 1 / 100 := by norm_num

/-- C4: for every call with nonnegative `incorrect` and `total > 0`, both
returned values are percentages rounded to two decimal places and their sum
is 100.00 within a tolerance of 0.01; in particular
`calculate_statistics 20 20 = (50.0, 50.0)`. -/
theorem calculate_statistics_sum_100 :
    (∀ incorrect total : ℚ, 0 ≤ incorrect → 0 < total →
      ∃ p : ℚ × ℚ, calculate_statistics incorrect total = some p ∧
        p.1 = round2 (100 * incorrect / (incorrect + total)) ∧
        p.2 = round2 (100 * total / (incorrect + total)) ∧
        |p.1 + p.2 - 100| ≤ 1 / 100) ∧
    calculate_statistics 20 20 = some (50, 50) := by
  constructor
  · intro incorrect total hinc htot
    have hs : incorrect + total ≠ 0 := by
      have : (0 : ℚ) < incorrect + total := by linarith
      exact this.ne'
    refine ⟨(round2 (100 * incorrect / (incorrect + total)),
             round2 (100 * total / (incorrect + total))), ?_, rfl, rfl, ?_⟩
    · rw [calculate_statistics, if_neg htot.ne']
    · apply round2_pair_bound
      field_simp
      ring
  · norm_num [calculate_statistics, round2, round_eq]

/-- C4 witness: the 20/20 call, with its rounded pair summing to 100 within
tolerance. -/
theorem calculate_statistics_sum_100_witness :
    ∃ p : ℚ × ℚ, calculate_statistics 20 20 = some p ∧
      p.1 = round2 (100 * 20 / (20 + 20)) ∧
      p.2 = round2 (100 * 20 / (20 + 20)) ∧
      |p.1 + p.2 - 100| ≤ 1 / 100 :=
  calculate_statistics_sum_100.1 20 20 (by norm_num) (by norm_num)

/-- C5 (amended): for nonnegative inputs with `total > 0`,
`calculate_statistics` computes its percentages over the sum of its two
arguments, not over the second argument alone; at `total = 0` the call is
the explicit division-by-zero error return, so `incorrect + total > 0` alone
does not suffice.  The worked examples (3, 20) -> (13.04, 86.96) and
(19, 20) -> (48.72, 51.28) hold. -/
theorem calculate_statistics_formula :
    (∀ incorrect total : ℚ, 0 ≤ incorrect → 0 < total →
        calculate_statistics incorrect total =
          some (round2 (100 * incorrect / (incorrect + total)),
                round2 (100 * total / (incorrect + total)))) ∧
    calculate_statistics 3 20 = some (1304 / 100, 8696 / 100) ∧
    calculate_statistics 19 20 = some (4872 / 100, 5128 / 100) := by
  refine ⟨?_, by norm_num [calculate_statistics, round2, round_eq],
    by norm_num [calculate_statistics, round2, round_eq]⟩
  intro incorrect total _ htot
  rw [calculate_statistics, if_neg htot.ne']

/-- C5 witness: the 15/20 call from the test suite. -/
theorem calculate_statistics_formula_witness :
    calculate_statistics 15 20 =
      some (round2 (100 * 15 / (15 + 20)), round2 (100 * 20 / (15 + 20))) :=
  calculate_statistics_formula.1 15 20 (by norm_num) (by norm_num)

/-- C5 counterexample: with `incorrect = 3` and `total = 0` the sum of the
arguments is positive, yet the call is the explicit error return rather than
the claimed rounded pair. -/
theorem calculate_statistics_not_total_free :
    calculate_statistics 3 0 ≠
      some (round2 (100 * 3 / (3 + 0)), round2 (100 * 0 / (3 + 0))) := by
  simp [calculate_statistics]

/-- C6: a call with `total = 0` is the explicit error return `none`: no
exception escapes the component boundary and no NaN is propagated. -/
theorem calculate_statistics_total_zero (incorrect : ℚ) :
    calculate_statistics incorrect 0 = none := by
  simp [calculate_statistics]

/-- C9: every interval produced by a successful round start satisfies
`start_internal < stop_internal`: for every valid level and every random
draw the two drawn integers are distinct and the smaller one is assigned to
`start_internal`. -/
theorem play_start_lt_stop
    (level : String) (leftClosed rightClosed : Bool)
    (draw : {p : ℤ × ℤ // p.1 ≠ p.2}) (r : GameRound)
    (h : play level leftClosed rightClosed draw = some r) :
    r.start_internal < r.stop_internal := by
  rw [play] at h
  rcases hp : parseIntStrict level with _ | n <;> rw [hp] at h
  · exact absurd h (by simp)
  · rcases hf : (fetch_game_level level).1 with _ | tier <;> rw [hf] at h
    · exact absurd h (by simp)
    · injection h with h'
      subst h'
      exact min_lt_max.mpr draw.prop

/-- A concrete random draw: the distinct pair (3, 5). -/
def sampleDraw : {p : ℤ × ℤ // p.1 ≠ p.2} := ⟨(3, 5), by decide⟩

/-- The round produced from level "0", closed glyphs and the draw (3, 5). -/
def sampleRound : GameRound :=
  { left_glyph := '[', right_glyph := ']', start_internal := 3,
    stop_internal := 5, start_representation := prettify_number 3,
    stop_representation := prettify_number 5, game_level := 0 }

/-- C9 witness: the round started at level "0" with draw (3, 5). -/
theorem play_start_lt_stop_witness :
    play "0" true true sampleDraw = some sampleRound ∧
    sampleRound.start_internal < sampleRound.stop_internal :=
  have hplay : play "0" true true sampleDraw = some sampleRound := rfl
  ⟨hplay, play_start_lt_stop "0" true true sampleDraw sampleRound hplay⟩
